import Mathlib

/-!
Shallow embedding of the inventory-assistant application.

The persistent store (SQLite tables `users`, `inventory`,
`product_usage_history` created in `database.py`) is modelled as lists of
records; `REAL` columns are modelled as `Rat`, timestamps as `Nat`,
nullable columns as `Option`.  Each database function of `database.py`
is translated into a pure state-passing function, and the relevant UI
callbacks of `app.py` (the use-product flow and the chatbot
suggestion parsing) and the normalisation step of `vision_utils.py`
become functions over the same state.
-/

namespace Inventory

/-- Row of the `inventory` table (`database.py`, `init_db`). -/
structure Item where
  id : Nat
  user_id : Nat
  product_name : String
  category : String
  quantity : Rat
  unit : String
  date_added : Nat
  last_used : Option Nat
  image_path : Option String
  min_stock_level : Option Rat
deriving Repr, DecidableEq

/-- Row of the `product_usage_history` table (`database.py`, `init_db`). -/
structure Event where
  id : Nat
  user_id : Nat
  product_id : Nat
  quantity_used : Rat
  usage_date : Nat
  operation_type : String
deriving Repr, DecidableEq

/-- The whole SQLite database: the `users` table as (id, username, password)
triples, the two other tables, and the AUTOINCREMENT counters. -/
structure DB where
  users : List (Nat × String × String)
  inventory : List Item
  usage : List Event
  nextItemId : Nat
  nextEventId : Nat
deriving Repr, DecidableEq

/-- The `WHERE user_id = ? AND product_name = ?` condition used by
`update_inventory_quantity` and `delete_product`. -/
def itemMatches (uid : Nat) (pname : String) (i : Item) : Bool :=
  i.user_id == uid && i.product_name == pname

/-- The `WHERE user_id = ? AND product_name = ? AND category = ?` condition
used by the existence check of `add_product`. -/
def itemMatches3 (uid : Nat) (pname category : String) (i : Item) : Bool :=
  i.user_id == uid && i.product_name == pname && i.category == category

/-- `authenticate_user` (`database.py` lines 92-101): the pair must match the
predefined credential dictionary exactly (case-sensitive `==`), and the
returned identifier is looked up in the `users` table. -/
def authenticate_user (preds : List (String × String)) (db : DB)
    (username password : String) : Option Nat :=
  match preds.lookup username with
  | some stored =>
      if stored == password then
        (db.users.find? (fun u => u.2.1 == username)).map (fun u => u.1)
      else none
  | none => none

/-- `add_product` (`database.py` lines 103-154): if a row with the same
(user_id, product_name, category) exists, add the quantity to it and refresh
`date_added`; otherwise insert a new row with the given quantity.  Either
way an `add` usage-history row is inserted recording the increment. -/
def add_product (db : DB) (uid : Nat) (name category : String) (quantity : Rat)
    (unit : String) (image_path : Option String) (min_stock_level : Option Rat)
    (now : Nat) : DB :=
  match db.inventory.find? (itemMatches3 uid name category) with
  | some existing =>
      { db with
        inventory := db.inventory.map (fun i =>
          if i.id == existing.id then
            { i with quantity := existing.quantity + quantity, date_added := now }
          else i),
        usage := db.usage ++
          [{ id := db.nextEventId, user_id := uid, product_id := existing.id,
             quantity_used := quantity, usage_date := now, operation_type := "add" }],
        nextEventId := db.nextEventId + 1 }
  | none =>
      { db with
        inventory := db.inventory ++
          [{ id := db.nextItemId, user_id := uid, product_name := name,
             category := category, quantity := quantity, unit := unit,
             date_added := now, last_used := none, image_path := image_path,
             min_stock_level := min_stock_level }],
        usage := db.usage ++
          [{ id := db.nextEventId, user_id := uid, product_id := db.nextItemId,
             quantity_used := quantity, usage_date := now, operation_type := "add" }],
        nextItemId := db.nextItemId + 1,
        nextEventId := db.nextEventId + 1 }

/-- `get_user_inventory` (`database.py` lines 156-163). -/
def get_user_inventory (db : DB) (uid : Nat) : List Item :=
  db.inventory.filter (fun i => i.user_id == uid)

/-- `update_inventory_quantity` (`database.py` lines 165-201): a single SQL
UPDATE overwriting `quantity` and `last_used` (and `min_stock_level` when one
is passed) on every row matching (user_id, product_name); it performs no
check on the new quantity and returns True unless the statement itself
raises. -/
def update_inventory_quantity (db : DB) (uid : Nat) (product_name : String)
    (quantity : Rat) (min_stock_level : Option Rat) (now : Nat) : DB × Bool :=
  ({ db with
     inventory := db.inventory.map (fun i =>
       if itemMatches uid product_name i then
         { i with quantity := quantity,
                  last_used := some now,
                  min_stock_level :=
                    match min_stock_level with
                    | some m => some m
                    | none => i.min_stock_level }
       else i) }, true)

/-- `get_low_stock_items` (`database.py` lines 203-213): SQL
`quantity <= min_stock_level`.  Under SQL three-valued logic a NULL
`min_stock_level` makes the comparison NULL, so the row is not selected. -/
def get_low_stock_items (db : DB) (uid : Nat) : List Item :=
  db.inventory.filter (fun i =>
    i.user_id == uid &&
      match i.min_stock_level with
      | some m => decide (i.quantity ≤ m)
      | none => false)

/-- `delete_product` (`database.py` lines 215-245): fetch the id of the first
row matching (user_id, product_name); if found, delete every inventory row
matching (user_id, product_name) and every history row matching
(user_id, that id), returning True; otherwise return False. -/
def delete_product (db : DB) (uid : Nat) (product_name : String) : DB × Bool :=
  match db.inventory.find? (itemMatches uid product_name) with
  | some product =>
      ({ db with
         inventory := db.inventory.filter (fun i => !(itemMatches uid product_name i)),
         usage := db.usage.filter (fun e =>
           !(e.user_id == uid && e.product_id == product.id)) }, true)
  | none => (db, false)

/-- A row of the result of `get_product_usage_history`: the SQL query selects
`h.*` together with the joined `i.product_name`. -/
structure HistoryRow where
  event : Event
  product_name : String
deriving Repr, DecidableEq

/-- The rows satisfying the JOIN and WHERE clauses of
`get_product_usage_history` (`database.py` lines 247-276), before ORDER BY
and LIMIT: history rows of the user joined to the inventory row whose `id`
equals their `product_id`, restricted to the given product name when one is
passed. -/
def historyJoinRows (db : DB) (uid : Nat) (pname : Option String) :
    List HistoryRow :=
  db.usage.flatMap (fun e =>
    if e.user_id == uid then
      (db.inventory.filter (fun i =>
        e.product_id == i.id &&
          match pname with
          | some p => i.product_name == p
          | none => true)).map (fun i => { event := e, product_name := i.product_name })
    else [])

/-- The `ORDER BY h.usage_date DESC` comparison. -/
def historyLe (a b : HistoryRow) : Bool :=
  decide (b.event.usage_date ≤ a.event.usage_date)

/-- `get_product_usage_history` (`database.py` lines 247-276): joined rows of
the user, most recent first, truncated to `limit`. -/
def get_product_usage_history (db : DB) (uid : Nat) (pname : Option String)
    (limit : Nat) : List HistoryRow :=
  ((historyJoinRows db uid pname).mergeSort historyLe).take limit

/-- The Python declaration `get_product_usage_history(user_id, product_name=None,
limit=5)` defaults `limit` to 5; this wrapper is that default application. -/
def get_product_usage_history_default (db : DB) (uid : Nat)
    (pname : Option String) : List HistoryRow :=
  get_product_usage_history db uid pname 5

/-- Outcome shown to the user by the use-product flow. -/
inductive UseResult where
  | success (newQuantity : Rat)
  | insufficientStock
  | noProduct
  | updateFailed
deriving Repr, DecidableEq

/-- The "Update Inventory" button of `show_use_product_page` (`app.py` lines
113-145): find the selected product in the user's inventory, compute
`new_quantity = quantity - quantity_used`, reject with the
"Cannot use more than available quantity" error when it is negative, and
otherwise delegate to `update_inventory_quantity`. -/
def recordUsage (db : DB) (uid : Nat) (product_name : String)
    (quantity_used : Rat) (now : Nat) : DB × UseResult :=
  match (get_user_inventory db uid).find? (fun i => i.product_name == product_name) with
  | none => (db, .noProduct)
  | some current =>
      if current.quantity - quantity_used < 0 then (db, .insufficientStock)
      else
        match update_inventory_quantity db uid product_name
            (current.quantity - quantity_used) none now with
        | (db2, true) => (db2, .success (current.quantity - quantity_used))
        | (db2, false) => (db2, .updateFailed)

/-- A sequence of `recordUsage` calls for one owner and product, each with a
used quantity and a timestamp. -/
def applyUses (db : DB) (uid : Nat) (product_name : String)
    (calls : List (Rat × Nat)) : DB :=
  calls.foldl (fun st c => (recordUsage st uid product_name c.1 c.2).1) db

/-- Character-list test that `pat` occurs at the head of `cs`. -/
def leadMatch : List Char → List Char → Bool
  | [], _ => true
  | _ :: _, [] => false
  | p :: ps, c :: cs => p == c && leadMatch ps cs

/-- The characters following the first occurrence of `pat` in `cs`, or `none`
when `pat` does not occur; this is the leftmost-match search shared by
Python's `in` operator and `re.search` on a literal pattern. -/
def afterFirst (pat : List Char) : List Char → Option (List Char)
  | [] => if leadMatch pat [] then some [] else none
  | c :: cs =>
      if leadMatch pat (c :: cs) then some ((c :: cs).drop pat.length)
      else afterFirst pat cs

/-- Python `pat in s` membership used by `display_chatbot`. -/
def hasSubstr (s pat : String) : Bool :=
  (afterFirst pat.toList s.toList).isSome

/-- The capture of `re.search(label + "(.*?)(?:\n|$)", s)` in
`display_chatbot` (`app.py` lines 367-370): `none` when the label does not
occur, otherwise the text following its first occurrence up to the first
newline or the end of the string (`.` does not match a newline, and the
non-greedy capture stops at the first `\n` or at the end). -/
def extractField (label : String) (s : String) : Option String :=
  (afterFirst label.toList s.toList).map
    (fun rest => String.mk (rest.takeWhile (fun c => c != '\n')))

/-- The four structured fields recognised by the chatbot parser. -/
structure Suggestion where
  product_name : String
  category : String
  unit : String
  quantity : String
deriving Repr, DecidableEq

/-- The parsing stage of `display_chatbot` (`app.py` lines 365-372): the
response must contain "Product Name:", and all four labelled fields must be
extracted, otherwise no suggestion is produced. -/
def parseSuggestion (s : String) : Option Suggestion :=
  if hasSubstr s "Product Name:" then
    match extractField "Product Name: " s, extractField "Category: " s,
          extractField "Unit: " s, extractField "Quantity: " s with
    | some n, some c, some u, some q =>
        some { product_name := n, category := c, unit := u, quantity := q }
    | _, _, _, _ => none
  else none

/-- What `display_chatbot` does with a response. -/
inductive ChatOutcome where
  | noAction
  | applied (name : String)
  | parseError
deriving Repr, DecidableEq

/-- The action stage of `display_chatbot` (`app.py` lines 365-386),
parameterised by the semantics `pf` of Python `float` on the extracted
quantity text: when the four fields are present, `float(quantity)` is
evaluated and `add_product` is called with the parsed value, a `None` image
path and `min_stock_level = 0`; a `float` failure propagates to the outer
`except` branch and no mutation happens; when any field is absent, nothing
happens and no error is raised. -/
def chatbotApply (pf : String → Option Rat) (db : DB) (uid : Nat)
    (response : String) (now : Nat) : DB × ChatOutcome :=
  match parseSuggestion response with
  | none => (db, .noAction)
  | some sug =>
      match pf sug.quantity with
      | some q =>
          (add_product db uid sug.product_name sug.category q sug.unit none (some 0) now,
           .applied sug.product_name)
      | none => (db, .parseError)

/-- The `valid_units` list of `analyze_with_openai` (`vision_utils.py`
line 111). -/
def valid_units : List String := ["kg", "g", "L", "ml", "pcs", "box", "pack"]

/-- The normalised product suggestion produced by `analyze_with_openai`. -/
structure VisionSuggestion where
  product_name : String
  category : String
  unit : String
  quantity : Rat
  notes : String
deriving Repr, DecidableEq

/-- The fields of the JSON object parsed from the model response in
`analyze_with_openai`, with the quantity field represented by the outcome of
Python `float` on it: `some v` when the conversion succeeds and `none` when
it raises `ValueError`/`TypeError`. -/
structure RawVisionResult where
  product_name : String
  category : String
  unit : String
  quantityFloat : Option Rat
  notes : String
deriving Repr, DecidableEq

/-- The validation step of `analyze_with_openai` (`vision_utils.py` lines
110-119): a unit outside `valid_units` becomes "pcs" and an unconvertible
quantity becomes 1.0. -/
def normalizeVisionResult (r : RawVisionResult) : VisionSuggestion :=
  { product_name := r.product_name, category := r.category,
    unit := if valid_units.contains r.unit then r.unit else "pcs",
    quantity :=
      match r.quantityFloat with
      | some v => v
      | none => 1,
    notes := r.notes }

/-- The result-handling block of `analyze_with_openai` (`vision_utils.py`
lines 107-130): when the response body parses as JSON the parsed object is
normalised, and on `json.JSONDecodeError` the fixed fallback suggestion is
returned. -/
def analyzeResult (labels : List String) (parsed : Option RawVisionResult) :
    VisionSuggestion :=
  match parsed with
  | some r => normalizeVisionResult r
  | none =>
      { product_name := labels.headD "Unknown Product", category := "Grocery",
        unit := "pcs", quantity := 1, notes := "Could not parse detailed analysis" }

/-- Mapping a function that fixes every element of a list is the identity. -/
theorem map_id_of_eq {α : Type} (l : List α) (f : α → α) (h : ∀ a ∈ l, f a = a) :
    l.map f = l :=
  (List.map_congr_left h).trans (List.map_id l)

/-! Concrete sample data used by the witness theorems. -/

/-- A sample inventory item with a low-stock threshold. -/
def milkItem : Item :=
  { id := 1, user_id := 1, product_name := "Milk", category := "Dairy & Alternatives",
    quantity := 2, unit := "L", date_added := 0, last_used := none,
    image_path := none, min_stock_level := some 2 }

/-- A sample inventory item with no low-stock threshold. -/
def riceItem : Item :=
  { id := 2, user_id := 1, product_name := "Rice", category := "Grocery",
    quantity := 0, unit := "kg", date_added := 0, last_used := none,
    image_path := none, min_stock_level := none }

/-- A sample usage-history row for the milk item. -/
def milkEvent : Event :=
  { id := 1, user_id := 1, product_id := 1, quantity_used := 2,
    usage_date := 4, operation_type := "add" }

/-- A sample database with one user and two products. -/
def sampleDb : DB :=
  { users := [(1, "admin", "admin123")],
    inventory := [milkItem, riceItem],
    usage := [milkEvent],
    nextItemId := 3, nextEventId := 2 }

/-- C4: an item of the owner appears in the low-stock query result exactly
when its `min_stock_level` is non-null and its quantity is at most that
threshold; a null threshold excludes the item instead of acting as zero. -/
theorem mem_get_low_stock_items_iff (db : DB) (uid : Nat) (i : Item)
    (hmem : i ∈ db.inventory) (howner : i.user_id = uid) :
    i ∈ get_low_stock_items db uid ↔
      ∃ m, i.min_stock_level = some m ∧ i.quantity ≤ m := by
  unfold get_low_stock_items
  rw [List.mem_filter]
  cases h : i.min_stock_level with
  | none => simp [hmem, howner, h]
  | some m => simp [hmem, howner, h]

/-- Witness for C4: the milk item (quantity 2, threshold 2) is reported low. -/
theorem mem_get_low_stock_items_iff_witness :
    milkItem ∈ get_low_stock_items sampleDb 1 :=
  (mem_get_low_stock_items_iff sampleDb 1 milkItem (by decide) (by decide)).mpr
    ⟨2, rfl, by norm_num [milkItem]⟩

/-- C5: `update_inventory_quantity` returns true for every new quantity —
negative values included — overwrites the quantity of every row of the named
product, refreshes `last_used`, overwrites `min_stock_level` when one is
supplied, creates or drops no row, and leaves other rows unchanged; in this
fault-free model it never returns false. -/
theorem update_inventory_quantity_spec (db : DB) (uid : Nat) (pname : String)
    (q : Rat) (msl : Option Rat) (now : Nat) :
    (update_inventory_quantity db uid pname q msl now).2 = true ∧
    (update_inventory_quantity db uid pname q msl now).1.inventory.length =
      db.inventory.length ∧
    (∀ j ∈ (update_inventory_quantity db uid pname q msl now).1.inventory,
       itemMatches uid pname j = true →
         j.quantity = q ∧ j.last_used = some now ∧
           ∀ m, msl = some m → j.min_stock_level = some m) ∧
    (∀ j ∈ (update_inventory_quantity db uid pname q msl now).1.inventory,
       itemMatches uid pname j = false → j ∈ db.inventory) := by
  refine ⟨rfl, by simp [update_inventory_quantity], ?_, ?_⟩
  · intro j hj hmatch
    simp only [update_inventory_quantity, List.mem_map] at hj
    obtain ⟨i, hi, rfl⟩ := hj
    by_cases hm : itemMatches uid pname i = true
    · cases msl with
      | none => simp [hm]
      | some m => simp [hm]
    · rw [if_neg hm] at hmatch
      exact absurd hmatch hm
  · intro j hj hmatch
    simp only [update_inventory_quantity, List.mem_map] at hj
    obtain ⟨i, hi, rfl⟩ := hj
    by_cases hm : itemMatches uid pname i = true
    · exfalso
      rw [if_pos hm] at hmatch
      have hmatch2 : itemMatches uid pname i = false := hmatch
      rw [hm] at hmatch2
      cases hmatch2
    · rw [if_neg hm]
      exact hi

/-- Witness for C5: updating the milk product to the negative quantity -3
still reports success. -/
theorem update_inventory_quantity_spec_witness :
    (update_inventory_quantity sampleDb 1 "Milk" (-3) none 9).2 = true :=
  (update_inventory_quantity_spec sampleDb 1 "Milk" (-3) none 9).1

/-- C10: when the owner has no row with the given product name,
`update_inventory_quantity` changes nothing and still returns true, so its
return value cannot distinguish a missing product from a successful update. -/
theorem update_inventory_quantity_not_found (db : DB) (uid : Nat)
    (pname : String) (q : Rat) (msl : Option Rat) (now : Nat)
    (habs : ∀ i ∈ db.inventory, itemMatches uid pname i = false) :
    update_inventory_quantity db uid pname q msl now = (db, true) := by
  unfold update_inventory_quantity
  rw [map_id_of_eq db.inventory _ (fun i hi => by simp [habs i hi])]

/-- Witness for C10: updating the absent product "Bread" (to a negative
quantity, even) leaves the sample database unchanged and returns true. -/
theorem update_inventory_quantity_not_found_witness :
    update_inventory_quantity sampleDb 1 "Bread" (-5) none 7 = (sampleDb, true) :=
  update_inventory_quantity_not_found sampleDb 1 "Bread" (-5) none 7 (by decide)

/-- C9: the normalised vision suggestion always carries a unit from the fixed
set — a unit outside it is replaced by "pcs", one inside it is kept — and its
numeric quantity is the parsed value, or 1.0 when the raw value could not be
converted to a number. -/
theorem analyzeResult_unit_quantity (labels : List String)
    (parsed : Option RawVisionResult) :
    (analyzeResult labels parsed).unit ∈ valid_units ∧
    (∀ r, parsed = some r → r.unit ∉ valid_units →
       (analyzeResult labels parsed).unit = "pcs") ∧
    (∀ r, parsed = some r → r.unit ∈ valid_units →
       (analyzeResult labels parsed).unit = r.unit) ∧
    (∀ r, parsed = some r → r.quantityFloat = none →
       (analyzeResult labels parsed).quantity = 1) ∧
    (∀ r v, parsed = some r → r.quantityFloat = some v →
       (analyzeResult labels parsed).quantity = v) := by
  refine ⟨?_, ?_, ?_, ?_, ?_⟩
  · cases parsed with
    | none => simp only [analyzeResult]; decide
    | some r =>
      by_cases h : r.unit ∈ valid_units
      · simp only [analyzeResult, normalizeVisionResult]
        rw [if_pos (List.elem_iff.mpr h)]
        exact h
      · simp only [analyzeResult, normalizeVisionResult]
        rw [if_neg (fun hc => h (List.elem_iff.mp hc))]
        decide
  · rintro r rfl h
    simp only [analyzeResult, normalizeVisionResult]
    rw [if_neg (fun hc => h (List.elem_iff.mp hc))]
  · rintro r rfl h
    simp only [analyzeResult, normalizeVisionResult]
    rw [if_pos (List.elem_iff.mpr h)]
  · rintro r rfl h
    simp [analyzeResult, normalizeVisionResult, h]
  · rintro r v rfl h
    simp [analyzeResult, normalizeVisionResult, h]

/-- A raw vision suggestion with a unit outside the fixed set and an
unconvertible quantity field. -/
def bottleRaw : RawVisionResult :=
  { product_name := "Milk", category := "Dairy & Alternatives",
    unit := "bottle", quantityFloat := none, notes := "" }

/-- Witness for C9: a raw suggestion with unit "bottle" and an unparseable
quantity normalises to "pcs" and 1. -/
theorem analyzeResult_unit_quantity_witness :
    (analyzeResult ["Milk"] (some bottleRaw)).unit = "pcs" ∧
    (analyzeResult ["Milk"] (some bottleRaw)).quantity = 1 :=
  ⟨(analyzeResult_unit_quantity ["Milk"] (some bottleRaw)).2.1 bottleRaw rfl (by decide),
   (analyzeResult_unit_quantity ["Milk"] (some bottleRaw)).2.2.2.1 bottleRaw rfl rfl⟩

/-- C7: authentication succeeds only on an exact, case-sensitive match of the
pair against the stored credentials (the identifier returned being the
matching users-table row), returns none whenever the pair does not match
exactly, and is a pure function of its inputs, so repeated calls with the
same correct pair return the same identifier. -/
theorem authenticate_user_exact (preds : List (String × String)) (db : DB)
    (u p : String) :
    (∀ ident, authenticate_user preds db u p = some ident →
       preds.lookup u = some p ∧
         ∃ row ∈ db.users, row.1 = ident ∧ row.2.1 = u) ∧
    (preds.lookup u ≠ some p → authenticate_user preds db u p = none) ∧
    authenticate_user preds db u p = authenticate_user preds db u p := by
  refine ⟨?_, ?_, rfl⟩
  · intro ident h
    unfold authenticate_user at h
    split at h
    · rename_i stored hl
      split at h
      · rename_i hs
        have hsp : stored = p := by simpa using hs
        subst hsp
        refine ⟨hl, ?_⟩
        cases hf : db.users.find? (fun row => row.2.1 == u) with
        | none => rw [hf] at h; cases h
        | some row =>
          rw [hf] at h
          exact ⟨row, List.mem_of_find?_eq_some hf, by simpa using h,
            by simpa using List.find?_some hf⟩
      · cases h
    · cases h
  · intro hne
    unfold authenticate_user
    split
    · rename_i stored hl
      rw [if_neg (fun hs => hne (hl.trans (congrArg some (by simpa using hs))))]
    · rfl

/-- Witness for C7: the correct pair yields the admin identifier and an
incorrect password yields none in the sample database. -/
theorem authenticate_user_exact_witness :
    authenticate_user [("admin", "admin123")] sampleDb "admin" "Admin123" = none :=
  (authenticate_user_exact [("admin", "admin123")] sampleDb "admin" "Admin123").2.1
    (by decide)

/-- C6: the chatbot applies an inventory mutation only when all four labelled
fields are extracted from the response; when any of them is absent, the
store is left unchanged and no error is raised. -/
theorem chatbotApply_all_or_nothing (pf : String → Option Rat) (db : DB)
    (uid : Nat) (s : String) (now : Nat) :
    ((extractField "Product Name: " s = none ∨ extractField "Category: " s = none ∨
        extractField "Unit: " s = none ∨ extractField "Quantity: " s = none) →
      chatbotApply pf db uid s now = (db, ChatOutcome.noAction)) ∧
    ((chatbotApply pf db uid s now).1 ≠ db →
      extractField "Product Name: " s ≠ none ∧ extractField "Category: " s ≠ none ∧
        extractField "Unit: " s ≠ none ∧ extractField "Quantity: " s ≠ none) := by
  have hparse : (extractField "Product Name: " s = none ∨
      extractField "Category: " s = none ∨ extractField "Unit: " s = none ∨
      extractField "Quantity: " s = none) → parseSuggestion s = none := by
    intro h
    unfold parseSuggestion
    by_cases hs : hasSubstr s "Product Name:" = true
    · rw [if_pos hs]
      rcases h with h | h | h | h <;>
        cases h1 : extractField "Product Name: " s <;>
        cases h2 : extractField "Category: " s <;>
        cases h3 : extractField "Unit: " s <;>
        cases h4 : extractField "Quantity: " s <;>
        simp_all
    · rw [if_neg hs]
  have happly : (extractField "Product Name: " s = none ∨
      extractField "Category: " s = none ∨ extractField "Unit: " s = none ∨
      extractField "Quantity: " s = none) →
      chatbotApply pf db uid s now = (db, ChatOutcome.noAction) := by
    intro h
    unfold chatbotApply
    rw [hparse h]
  refine ⟨happly, fun hne => ⟨?_, ?_, ?_, ?_⟩⟩
  · exact fun h1 => hne (congrArg Prod.fst (happly (Or.inl h1)))
  · exact fun h2 => hne (congrArg Prod.fst (happly (Or.inr (Or.inl h2))))
  · exact fun h3 => hne (congrArg Prod.fst (happly (Or.inr (Or.inr (Or.inl h3)))))
  · exact fun h4 => hne (congrArg Prod.fst (happly (Or.inr (Or.inr (Or.inr h4)))))

/-- Witness for C6: a response carrying only the Product Name and Category
fields leaves the sample database untouched and raises no error. -/
theorem chatbotApply_all_or_nothing_witness :
    chatbotApply (fun _ => some 1) sampleDb 1
      "Product Name: Milk\nCategory: Dairy & Alternatives" 3 =
      (sampleDb, ChatOutcome.noAction) :=
  (chatbotApply_all_or_nothing (fun _ => some 1) sampleDb 1
      "Product Name: Milk\nCategory: Dairy & Alternatives" 3).1
    (Or.inr (Or.inr (Or.inl (by decide))))

/-- C8: the usage-history query returns at most `limit` rows, sorted most
recent first by `usage_date`; every returned row is one of the owner's
usage events joined to its inventory item and, when a product filter is
given, carries the named product; and the Python declaration defaults
`limit` to 5. -/
theorem get_product_usage_history_spec (db : DB) (uid : Nat)
    (pname : Option String) (limit : Nat) :
    (get_product_usage_history db uid pname limit).length ≤ limit ∧
    List.Sorted (fun a b : HistoryRow => b.event.usage_date ≤ a.event.usage_date)
      (get_product_usage_history db uid pname limit) ∧
    (∀ r ∈ get_product_usage_history db uid pname limit,
       r.event.user_id = uid ∧ r.event ∈ db.usage ∧
         ∃ i ∈ db.inventory, i.id = r.event.product_id ∧
           i.product_name = r.product_name ∧
           ∀ q, pname = some q → r.product_name = q) ∧
    get_product_usage_history_default db uid pname =
      get_product_usage_history db uid pname 5 := by
  refine ⟨List.length_take_le _ _, ?_, ?_, rfl⟩
  · have hp : List.Pairwise (fun a b => historyLe a b = true)
        ((historyJoinRows db uid pname).mergeSort historyLe) :=
      List.sorted_mergeSort
        (fun a b c hab hbc => by
          simp only [historyLe, decide_eq_true_eq] at *
          exact le_trans hbc hab)
        (fun a b => by
          simp only [historyLe, Bool.or_eq_true, decide_eq_true_eq]
          exact Nat.le_total b.event.usage_date a.event.usage_date)
        (historyJoinRows db uid pname)
    have hp2 := List.Pairwise.sublist (List.take_sublist limit _) hp
    exact hp2.imp (fun h => by simpa [historyLe] using h)
  · intro r hr
    have hr2 : r ∈ historyJoinRows db uid pname :=
      List.mem_mergeSort.mp (List.mem_of_mem_take hr)
    unfold historyJoinRows at hr2
    rw [List.mem_flatMap] at hr2
    obtain ⟨e, he, hre⟩ := hr2
    by_cases hu : (e.user_id == uid) = true
    · rw [if_pos hu] at hre
      rw [List.mem_map] at hre
      obtain ⟨i, hi, rfl⟩ := hre
      rw [List.mem_filter] at hi
      obtain ⟨hi, hcond⟩ := hi
      simp only [Bool.and_eq_true, beq_iff_eq] at hcond
      refine ⟨by simpa using hu, he, i, hi, hcond.1.symm, rfl, ?_⟩
      intro q hq
      rw [hq] at hcond
      simpa using hcond.2
    · rw [if_neg hu] at hre
      cases hre

/-- Witness for C8: in the sample database the history for "Milk" holds at
most five rows, and every returned row belongs to owner 1. -/
theorem get_product_usage_history_spec_witness :
    (get_product_usage_history sampleDb 1 (some "Milk") 5).length ≤ 5 ∧
    ∀ r ∈ get_product_usage_history sampleDb 1 (some "Milk") 5,
      r.event.user_id = 1 :=
  ⟨(get_product_usage_history_spec sampleDb 1 (some "Milk") 5).1,
   fun r hr =>
     ((get_product_usage_history_spec sampleDb 1 (some "Milk") 5).2.2.1 r hr).1⟩

/-- A single `recordUsage` call keeps every quantity of the owner's named
product non-negative, provided they were non-negative before. -/
theorem recordUsage_preserves (db : DB) (uid : Nat) (pname : String)
    (used : Rat) (now : Nat)
    (h : ∀ i ∈ db.inventory, itemMatches uid pname i = true → 0 ≤ i.quantity) :
    ∀ i ∈ (recordUsage db uid pname used now).1.inventory,
      itemMatches uid pname i = true → 0 ≤ i.quantity := by
  unfold recordUsage
  split
  · exact h
  · rename_i cur hf
    split
    · exact h
    · rename_i hneg
      split
      · rename_i db2 heq
        unfold update_inventory_quantity at heq
        injection heq with heq1 _heq2
        intro i hi hmatch
        rw [← heq1] at hi
        simp only [List.mem_map] at hi
        obtain ⟨j, hj, rfl⟩ := hi
        by_cases hm : itemMatches uid pname j = true
        · rw [if_pos hm]
          have : (0 : Rat) ≤ cur.quantity - used := le_of_not_lt hneg
          exact this
        · rw [if_neg hm] at hmatch ⊢
          exact h j hj hmatch
      · rename_i db2 heq
        unfold update_inventory_quantity at heq
        injection heq with _heq1 heq2
        cases heq2

/-- C1: a `recordUsage` call whose used quantity exceeds the current
quantity is rejected with the insufficient-stock error and leaves the whole
store unchanged; an accepted call reports success and sets the product's
quantity to current minus used; and along any sequence of calls the
product's stored quantities stay non-negative when they start so. -/
theorem recordUsage_nonneg (db : DB) (uid : Nat) (pname : String) :
    (∀ cur used now,
       (get_user_inventory db uid).find? (fun i => i.product_name == pname) =
           some cur →
         (cur.quantity < used →
            recordUsage db uid pname used now = (db, UseResult.insufficientStock)) ∧
         (used ≤ cur.quantity →
            (recordUsage db uid pname used now).2 =
                UseResult.success (cur.quantity - used) ∧
              ∀ i ∈ (recordUsage db uid pname used now).1.inventory,
                itemMatches uid pname i = true →
                  i.quantity = cur.quantity - used)) ∧
    (∀ calls : List (Rat × Nat),
       (∀ i ∈ db.inventory, itemMatches uid pname i = true → 0 ≤ i.quantity) →
         ∀ i ∈ (applyUses db uid pname calls).inventory,
           itemMatches uid pname i = true → 0 ≤ i.quantity) := by
  constructor
  · intro cur used now hfind
    constructor
    · intro hlt
      simp only [recordUsage, hfind]
      rw [if_pos (sub_neg.mpr hlt)]
    · intro hle
      simp only [recordUsage, hfind]
      rw [if_neg (not_lt.mpr (sub_nonneg.mpr hle))]
      simp only [update_inventory_quantity]
      refine ⟨trivial, ?_⟩
      intro i hi hmatch
      simp only [List.mem_map] at hi
      obtain ⟨j, hj, rfl⟩ := hi
      by_cases hm : itemMatches uid pname j = true
      · rw [if_pos hm]
      · rw [if_neg hm] at hmatch ⊢
        exact absurd hmatch hm
  · intro calls
    induction calls generalizing db with
    | nil => intro h; exact h
    | cons c cs ih =>
      intro h
      have hstep := recordUsage_preserves db uid pname c.1 c.2 h
      unfold applyUses at ih ⊢
      rw [List.foldl_cons]
      exact ih (recordUsage db uid pname c.1 c.2).1 hstep

/-- Witness for C1: using 5 litres of milk when only 2 are stored is
rejected and leaves the sample database unchanged, while using 1 litre
succeeds with new quantity 1. -/
theorem recordUsage_nonneg_witness :
    recordUsage sampleDb 1 "Milk" 5 6 = (sampleDb, UseResult.insufficientStock) ∧
    (recordUsage sampleDb 1 "Milk" 1 6).2 = UseResult.success 1 :=
  ⟨((recordUsage_nonneg sampleDb 1 "Milk").1 milkItem 5 6 (by decide)).1 (by decide),
   by
     have h := (((recordUsage_nonneg sampleDb 1 "Milk").1 milkItem 1 6
       (by decide)).2 (by decide)).1
     have hq : milkItem.quantity - 1 = (1 : Rat) := by norm_num [milkItem]
     rw [hq] at h
     exact h⟩

/-- The merge update of `add_product` changes neither the owner, the name
nor the category of a row, so the merge key is invariant under it. -/
theorem itemMatches3_update (uid : Nat) (name category : String) (exid : Nat)
    (q : Rat) (t : Nat) (i : Item) :
    itemMatches3 uid name category
        (if i.id == exid then { i with quantity := q, date_added := t } else i) =
      itemMatches3 uid name category i := by
  split <;> rfl

/-- `find?` with the merge key commutes with the merge update map. -/
theorem find?_merge_map (l : List Item) (uid : Nat) (name category : String)
    (exid : Nat) (q : Rat) (t : Nat) :
    (l.map (fun i =>
        if i.id == exid then { i with quantity := q, date_added := t } else i)).find?
        (itemMatches3 uid name category) =
      (l.find? (itemMatches3 uid name category)).map
        (fun i => if i.id == exid then { i with quantity := q, date_added := t } else i) := by
  rw [List.find?_map,
    show itemMatches3 uid name category ∘
        (fun i => if i.id == exid then { i with quantity := q, date_added := t } else i) =
      itemMatches3 uid name category from
      funext fun i => itemMatches3_update uid name category exid q t i]

/-- Unfolding of `add_product` when the merge key finds an existing row. -/
theorem add_product_found (db : DB) (uid : Nat) (name category : String)
    (q : Rat) (u : String) (img : Option String) (msl : Option Rat) (t : Nat)
    (ex : Item) (hf : db.inventory.find? (itemMatches3 uid name category) = some ex) :
    add_product db uid name category q u img msl t =
      { db with
        inventory := db.inventory.map (fun i =>
          if i.id == ex.id then { i with quantity := ex.quantity + q, date_added := t }
          else i),
        usage := db.usage ++
          [{ id := db.nextEventId, user_id := uid, product_id := ex.id,
             quantity_used := q, usage_date := t, operation_type := "add" }],
        nextEventId := db.nextEventId + 1 } := by
  simp only [add_product, hf]

/-- Unfolding of `add_product` when the merge key finds no existing row. -/
theorem add_product_missing (db : DB) (uid : Nat) (name category : String)
    (q : Rat) (u : String) (img : Option String) (msl : Option Rat) (t : Nat)
    (hf : db.inventory.find? (itemMatches3 uid name category) = none) :
    add_product db uid name category q u img msl t =
      { db with
        inventory := db.inventory ++
          [{ id := db.nextItemId, user_id := uid, product_name := name,
             category := category, quantity := q, unit := u, date_added := t,
             last_used := none, image_path := img, min_stock_level := msl }],
        usage := db.usage ++
          [{ id := db.nextEventId, user_id := uid, product_id := db.nextItemId,
             quantity_used := q, usage_date := t, operation_type := "add" }],
        nextItemId := db.nextItemId + 1,
        nextEventId := db.nextEventId + 1 } := by
  simp only [add_product, hf]

/-- C2: two upserts with the same owner, name and category leave the item's
quantity at its pre-existing value (0 when absent) plus q1 plus q2, the
second (merge) call refreshes `date_added`, and — starting from a state with
no `add` event for that product — exactly two `add` UsageEvents exist for it
afterwards, one per call, recording q1 and q2 as their increments. -/
theorem add_product_twice (db : DB) (uid : Nat) (name category : String)
    (q1 q2 : Rat) (u1 u2 : String) (img1 img2 : Option String)
    (msl1 msl2 : Option Rat) (t1 t2 : Nat)
    (_hq1 : 0 < q1) (_hq2 : 0 < q2)
    (hpid : ∀ e ∈ db.usage, e.product_id < db.nextItemId)
    (hnoadd : ∀ e ∈ db.usage, e.operation_type = "add" →
       ∀ i ∈ db.inventory, itemMatches3 uid name category i = true →
         e.product_id ≠ i.id) :
    ∃ item,
      (add_product (add_product db uid name category q1 u1 img1 msl1 t1)
            uid name category q2 u2 img2 msl2 t2).inventory.find?
          (itemMatches3 uid name category) = some item ∧
      item.quantity =
        (db.inventory.find? (itemMatches3 uid name category)).elim 0
            (fun i => i.quantity) + q1 + q2 ∧
      item.date_added = t2 ∧
      ((add_product (add_product db uid name category q1 u1 img1 msl1 t1)
            uid name category q2 u2 img2 msl2 t2).usage.filter
          (fun e => e.operation_type == "add" && e.product_id == item.id)).map
        (fun e => e.quantity_used) = [q1, q2] := by
  cases hf : db.inventory.find? (itemMatches3 uid name category) with
  | some ex =>
    have hmem : ex ∈ db.inventory := List.mem_of_find?_eq_some hf
    have hkey : itemMatches3 uid name category ex = true := List.find?_some hf
    have hA := add_product_found db uid name category q1 u1 img1 msl1 t1 ex hf
    have hfindA : (add_product db uid name category q1 u1 img1 msl1 t1).inventory.find?
        (itemMatches3 uid name category) =
        some { ex with quantity := ex.quantity + q1, date_added := t1 } := by
      simp only [hA, find?_merge_map, hf, Option.map_some']
      simp
    have hB := add_product_found (add_product db uid name category q1 u1 img1 msl1 t1)
      uid name category q2 u2 img2 msl2 t2
      { ex with quantity := ex.quantity + q1, date_added := t1 } hfindA
    have hfindB : (add_product (add_product db uid name category q1 u1 img1 msl1 t1)
        uid name category q2 u2 img2 msl2 t2).inventory.find?
        (itemMatches3 uid name category) =
        some { ex with quantity := ex.quantity + q1 + q2, date_added := t2 } := by
      simp only [hB, find?_merge_map, hfindA, Option.map_some']
      simp
    have husageA : (add_product db uid name category q1 u1 img1 msl1 t1).usage =
        db.usage ++
          [{ id := db.nextEventId, user_id := uid, product_id := ex.id,
             quantity_used := q1, usage_date := t1, operation_type := "add" }] := by
      rw [hA]
    have husageB : (add_product (add_product db uid name category q1 u1 img1 msl1 t1)
        uid name category q2 u2 img2 msl2 t2).usage =
        (add_product db uid name category q1 u1 img1 msl1 t1).usage ++
          [{ id := (add_product db uid name category q1 u1 img1 msl1 t1).nextEventId,
             user_id := uid, product_id := ex.id,
             quantity_used := q2, usage_date := t2, operation_type := "add" }] := by
      rw [hB]
    refine ⟨{ ex with quantity := ex.quantity + q1 + q2, date_added := t2 },
      hfindB, rfl, rfl, ?_⟩
    rw [husageB, husageA, List.filter_append, List.filter_append]
    have hnil : db.usage.filter (fun e =>
        e.operation_type == "add" && e.product_id == ex.id) = [] := by
      rw [List.filter_eq_nil_iff]
      intro e he
      by_cases hop : e.operation_type = "add"
      · have hne := hnoadd e he hop ex hmem hkey
        simp [hne]
      · simp [hop]
    rw [hnil]
    simp
  | none =>
    have hA := add_product_missing db uid name category q1 u1 img1 msl1 t1 hf
    have hfindA : (add_product db uid name category q1 u1 img1 msl1 t1).inventory.find?
        (itemMatches3 uid name category) =
        some { id := db.nextItemId, user_id := uid, product_name := name,
               category := category, quantity := q1, unit := u1, date_added := t1,
               last_used := none, image_path := img1, min_stock_level := msl1 } := by
      simp only [hA, List.find?_append, hf]
      simp [itemMatches3]
    have hB := add_product_found (add_product db uid name category q1 u1 img1 msl1 t1)
      uid name category q2 u2 img2 msl2 t2
      { id := db.nextItemId, user_id := uid, product_name := name,
        category := category, quantity := q1, unit := u1, date_added := t1,
        last_used := none, image_path := img1, min_stock_level := msl1 } hfindA
    have hfindB : (add_product (add_product db uid name category q1 u1 img1 msl1 t1)
        uid name category q2 u2 img2 msl2 t2).inventory.find?
        (itemMatches3 uid name category) =
        some { id := db.nextItemId, user_id := uid, product_name := name,
               category := category, quantity := q1 + q2, unit := u1, date_added := t2,
               last_used := none, image_path := img1, min_stock_level := msl1 } := by
      simp only [hB, find?_merge_map, hfindA, Option.map_some']
      simp
    have husageA : (add_product db uid name category q1 u1 img1 msl1 t1).usage =
        db.usage ++
          [{ id := db.nextEventId, user_id := uid, product_id := db.nextItemId,
             quantity_used := q1, usage_date := t1, operation_type := "add" }] := by
      rw [hA]
    have husageB : (add_product (add_product db uid name category q1 u1 img1 msl1 t1)
        uid name category q2 u2 img2 msl2 t2).usage =
        (add_product db uid name category q1 u1 img1 msl1 t1).usage ++
          [{ id := (add_product db uid name category q1 u1 img1 msl1 t1).nextEventId,
             user_id := uid, product_id := db.nextItemId,
             quantity_used := q2, usage_date := t2, operation_type := "add" }] := by
      rw [hB]
    refine ⟨{ id := db.nextItemId, user_id := uid, product_name := name,
              category := category, quantity := q1 + q2, unit := u1, date_added := t2,
              last_used := none, image_path := img1, min_stock_level := msl1 },
      hfindB, by simp, rfl, ?_⟩
    rw [husageB, husageA, List.filter_append, List.filter_append]
    have hnil : db.usage.filter (fun e =>
        e.operation_type == "add" && e.product_id == db.nextItemId) = [] := by
      rw [List.filter_eq_nil_iff]
      intro e he
      have hne : e.product_id ≠ db.nextItemId := Nat.ne_of_lt (hpid e he)
      simp [hne]
    rw [hnil]
    simp

/-- Witness for C2: adding 2 then 1 litres of a fresh product "Juice" to the
sample database yields quantity 3, a `date_added` of the second call, and
exactly the two `add` events with increments 2 and 1. -/
theorem add_product_twice_witness :
    ∃ item,
      (add_product (add_product sampleDb 1 "Juice" "Beverages" 2 "L" none none 10)
            1 "Juice" "Beverages" 1 "L" none none 11).inventory.find?
          (itemMatches3 1 "Juice" "Beverages") = some item ∧
      item.quantity =
        (sampleDb.inventory.find? (itemMatches3 1 "Juice" "Beverages")).elim 0
            (fun i => i.quantity) + 2 + 1 ∧
      item.date_added = 11 ∧
      ((add_product (add_product sampleDb 1 "Juice" "Beverages" 2 "L" none none 10)
            1 "Juice" "Beverages" 1 "L" none none 11).usage.filter
          (fun e => e.operation_type == "add" && e.product_id == item.id)).map
        (fun e => e.quantity_used) = [2, 1] :=
  add_product_twice sampleDb 1 "Juice" "Beverages" 2 1 "L" "L" none none none none 10 11
    (by norm_num) (by norm_num) (by decide) (by decide)

/-- C3: `delete_product` returns true exactly when the owner has an item of
that name; after a successful deletion the owner's inventory listing no
longer contains the product, the product's usage history query returns the
empty sequence, and every usage event of the deleted (first-matched) item is
gone. -/
theorem delete_product_spec (db : DB) (uid : Nat) (pname : String)
    (hown : ∀ e ∈ db.usage, ∀ i ∈ db.inventory,
       e.product_id = i.id → e.user_id = i.user_id) :
    ((delete_product db uid pname).2 = true ↔
       ∃ i ∈ db.inventory, i.user_id = uid ∧ i.product_name = pname) ∧
    ((delete_product db uid pname).2 = true →
       (∀ i ∈ get_user_inventory (delete_product db uid pname).1 uid,
          i.product_name ≠ pname) ∧
       (∀ limit, get_product_usage_history (delete_product db uid pname).1 uid
          (some pname) limit = []) ∧
       (∀ p, db.inventory.find? (itemMatches uid pname) = some p →
          ∀ e ∈ (delete_product db uid pname).1.usage,
            ¬(e.user_id = uid ∧ e.product_id = p.id))) := by
  cases hf : db.inventory.find? (itemMatches uid pname) with
  | some p0 =>
    have hd : delete_product db uid pname =
        ({ db with
           inventory := db.inventory.filter (fun i => !(itemMatches uid pname i)),
           usage := db.usage.filter (fun e =>
             !(e.user_id == uid && e.product_id == p0.id)) }, true) := by
      simp only [delete_product, hf]
    have hm : p0.user_id = uid ∧ p0.product_name = pname := by
      simpa [itemMatches] using List.find?_some hf
    constructor
    · exact iff_of_true (by rw [hd])
        ⟨p0, List.mem_of_find?_eq_some hf, hm.1, hm.2⟩
    · intro _
      refine ⟨?_, ?_, ?_⟩
      · intro i hi hname
        simp only [hd, get_user_inventory, List.mem_filter] at hi
        obtain ⟨⟨hmem2, hnm⟩, huser⟩ := hi
        simp [itemMatches, hname, huser] at hnm
      · intro limit
        have hrows : historyJoinRows (delete_product db uid pname).1 uid
            (some pname) = [] := by
          unfold historyJoinRows
          rw [List.flatMap_eq_nil_iff]
          intro e he
          by_cases hu : (e.user_id == uid) = true
          · rw [if_pos hu]
            have hfilter : (delete_product db uid pname).1.inventory.filter
                (fun i => e.product_id == i.id && i.product_name == pname) = [] := by
              rw [List.filter_eq_nil_iff]
              intro i hi
              simp only [hd, List.mem_filter] at hi
              obtain ⟨hmem2, hnm⟩ := hi
              simp only [Bool.and_eq_true, beq_iff_eq, not_and]
              intro hpid2 hname
              simp only [hd, List.mem_filter] at he
              have huid : e.user_id = uid := by simpa using hu
              have := hown e he.1 i hmem2 hpid2
              simp [itemMatches, hname, ← this, huid] at hnm
            rw [hfilter]
            rfl
          · rw [if_neg hu]
        unfold get_product_usage_history
        rw [hrows, List.mergeSort_nil, List.take_nil]
      · intro p hp e he
        injection hp with hp
        subst hp
        simp only [hd, List.mem_filter] at he
        rintro ⟨h1, h2⟩
        simp [h1, h2] at he
  | none =>
    have hd : delete_product db uid pname = (db, false) := by
      simp only [delete_product, hf]
    constructor
    · refine iff_of_false (by rw [hd]; simp) ?_
      rintro ⟨i, hi, hu, hn⟩
      have hnone := List.find?_eq_none.mp hf i hi
      exact hnone (by simp [itemMatches, hu, hn])
    · intro hsucc
      rw [hd] at hsucc
      cases hsucc

/-- Witness for C3: deleting "Milk" from the sample database succeeds,
removes it from the owner's listing, and empties its usage history. -/
theorem delete_product_spec_witness :
    (delete_product sampleDb 1 "Milk").2 = true ∧
    (∀ i ∈ get_user_inventory (delete_product sampleDb 1 "Milk").1 1,
       i.product_name ≠ "Milk") ∧
    get_product_usage_history (delete_product sampleDb 1 "Milk").1 1
      (some "Milk") 5 = [] := by
  have hspec := delete_product_spec sampleDb 1 "Milk" (by decide)
  have hsucc : (delete_product sampleDb 1 "Milk").2 = true :=
    hspec.1.mpr ⟨milkItem, by decide, by decide, by decide⟩
  exact ⟨hsucc, (hspec.2 hsucc).1, (hspec.2 hsucc).2.1 5⟩

end Inventory
